import Mathlib

/-
Verification of src/echonest/audio.py against its specification.

The Python module is shallowly embedded below:
  * class AudioAnalysis  (lazy per-field caching proxy over a remote fetch API)
  * class AudioData      (fixed-capacity int16 sample buffer over numpy arrays)
  * def getpieces        (reassembles segment sub-ranges into one buffer)

External collaborators (echonest.web.analyze, the filesystem) are passed in as
function parameters; numpy arrays are modelled as lists, Python floats as
rationals (every constant appearing in the module and in the properties is
exactly representable), Python ints as Int, and raised exceptions as Except.
-/

set_option autoImplicit false

namespace EchoAudio

/-- Python exceptions raised by the embedded code.  The spec's names map as:
InvalidArgument = typeError, CapacityExceeded / bad numpy broadcast = valueError,
UninitializedBuffer = typeError or attributeError (operation on data=None),
IndexError = indexError. -/
inductive PyErr where
  | typeError
  | valueError
  | attributeError
  | indexError
  deriving DecidableEq

/-! ## AudioAnalysis: transparent caching proxy -/

/-- AudioAnalysis.CACHED_VARIABLES from the source. -/
def CACHED_VARIABLES : List String :=
  [ "bars",
    "beats",
    "duration",
    "end_of_fade_in",
    "key",
    "loudness",
    "metadata",
    "mode",
    "sections",
    "segments",
    "start_of_fade_out",
    "tatums",
    "tempo",
    "time_signature" ]

/-- The observable state of an AudioAnalysis object: its track id and, for each
cached variable name, the attribute slot (None = unset).  `V` is the type of
values returned by the remote fetch collaborator (the fetch collaborator
returns an actual field value, per spec section 6). -/
structure AudioAnalysis (V : Type) where
  id : String
  cache : String → Option V

/-- AudioAnalysis.__getattribute__ restricted to attribute slots.  `fetch f i`
models analyze.get_<f>(i).  Returns (value returned, new object state, number
of network fetch calls performed). -/
def AudioAnalysis.getattribute {V : Type} (fetch : String → String → V)
    (a : AudioAnalysis V) (name : String) : Option V × AudioAnalysis V × Nat :=
  if name ∈ CACHED_VARIABLES then
    match a.cache name with
    | none =>
        let v := fetch name a.id
        (some v, { a with cache := fun n => if n = name then some v else a.cache n }, 1)
    | some v => (some v, a, 0)
  else
    (a.cache name, a, 0)

/-- One iteration of the refreshCachedVariables loop: set the slot to None,
read it back through __getattribute__, and accumulate the fetch count. -/
def AudioAnalysis.refreshStep {V : Type} (fetch : String → String → V)
    (acc : AudioAnalysis V × Nat) (name : String) : AudioAnalysis V × Nat :=
  let cleared : AudioAnalysis V :=
    { acc.1 with cache := fun n => if n = name then none else acc.1.cache n }
  let r := AudioAnalysis.getattribute fetch cleared name
  (r.2.1, acc.2 + r.2.2)

/-- AudioAnalysis.refreshCachedVariables: for each cached variable, set it to
None and then read it back through __getattribute__ (forcing a re-fetch).
Returns the new state and the total number of fetch calls. -/
def AudioAnalysis.refreshCachedVariables {V : Type} (fetch : String → String → V)
    (a : AudioAnalysis V) : AudioAnalysis V × Nat :=
  CACHED_VARIABLES.foldl (AudioAnalysis.refreshStep fetch) (a, 0)

/-- Constructor argument universe: Python strings versus any non-string value
(only the string/non-string distinction is observable to __init__'s checks). -/
inductive PyArg where
  | str (s : String)
  | nonstr
  deriving DecidableEq

/-- AudioAnalysis.__init__.  `isfile` models os.path.isfile; `uploadId s`
models the thingID extracted from analyze.upload(s) (a successful upload; a
failing collaborator would propagate, which no claim here exercises).
Returns (constructed object or raised exception, number of upload calls). -/
def AudioAnalysis.init (V : Type) (isfile : String → Bool) (uploadId : String → String)
    (audio : PyArg) : Except PyErr (AudioAnalysis V) × Nat :=
  match audio with
  | .nonstr => (.error .typeError, 0)
  | .str s =>
      if isfile s || s.contains '.' then
        (.ok { id := uploadId s, cache := fun _ => none }, 1)
      else
        (.ok { id := s, cache := fun _ => none }, 0)

/-! ## AudioData: fixed-capacity int16 sample buffer over numpy arrays -/

/-- Python int() applied to a float value, modelled on rationals: truncation
toward zero (floor for nonnegative values, ceiling for negative ones). -/
def pyInt (q : ℚ) : Int := if 0 ≤ q then ⌊q⌋ else ⌈q⌉

/-- A numpy ndarray of dtype int16: either 1-dimensional (mono) or
2-dimensional (frames x channels).  Sample values are modelled as Int; the
int16 value range plays no role in any claim. -/
inductive NpArray where
  | mono (samples : List Int)
  | stereo (rows : List (List Int)) (channels : Nat)
  deriving DecidableEq

/-- An array shape as passed to numpy.zeros. -/
inductive NpShape where
  | one (n : Nat)
  | two (n c : Nat)
  deriving DecidableEq

/-- numpy.zeros(shape, dtype=int16). -/
def npZeros : NpShape → NpArray
  | .one n => .mono (List.replicate n 0)
  | .two n c => .stereo (List.replicate n (List.replicate c 0)) c

/-- len(arr): the first dimension of the array. -/
def NpArray.frames : NpArray → Nat
  | .mono xs => xs.length
  | .stereo rows _ => rows.length

/-- arr.shape. -/
def NpArray.shape : NpArray → NpShape
  | .mono xs => .one xs.length
  | .stereo rows c => .two rows.length c

/-- numpy.zeros(arr.shape, dtype=int16). -/
def npZerosLike (arr : NpArray) : NpArray := npZeros arr.shape

/-- Rectangularity invariant of real numpy 2-d arrays: every row has length
equal to the channel count (holds vacuously for 1-d arrays). -/
def NpArray.wfb : NpArray → Bool
  | .mono _ => true
  | .stereo rows c => rows.all (fun r => r.length == c)

/-- Resolution of one Python slice bound against an array of first dimension
n: negative indices count from the end, all indices are clamped into [0, n]. -/
def clampIdx (n : Nat) (i : Int) : Nat :=
  if i < 0 then ((n : Int) + i).toNat else min i.toNat n

/-- xs[s:e] on a list (one numpy axis), with omitted bounds defaulting to the
ends.  All slices in this module have step None, so no step is modelled. -/
def listSlice {α : Type} (xs : List α) (s e : Option Int) : List α :=
  let i := match s with | Option.none => 0 | some v => clampIdx xs.length v
  let j := match e with | Option.none => xs.length | some v => clampIdx xs.length v
  (xs.drop i).take (j - i)

/-- Slice assignment xs[i:j] = ys on one numpy axis.  The target slice is
clamped to the array, then ys must either match its length exactly or have
length 1 (numpy broadcasts a length-1 source along the axis, including into
an empty slice); otherwise numpy raises ValueError (modelled as none). -/
def listSetSlice {α : Type} [Inhabited α] (xs : List α) (i j : Int) (ys : List α) :
    Option (List α) :=
  let s := clampIdx xs.length i
  let e := clampIdx xs.length j
  let k := e - s
  if ys.length = k then some (xs.take s ++ ys ++ xs.drop (s + k))
  else if ys.length = 1 then
    some (xs.take s ++ List.replicate k ys.headI ++ xs.drop (s + k))
  else Option.none

/-- arr[i:j] = src for whole int16 arrays.  Arrays of different rank, or 2-d
sources whose rows do not all match the target's channel count, do not occur
in this module's call sites; those numpy corner cases are modelled as an
error (none). -/
def npSetSlice : NpArray → Int → Int → NpArray → Option NpArray
  | .mono xs, i, j, .mono ys => (listSetSlice xs i j ys).map NpArray.mono
  | .stereo rows c, i, j, .stereo rows2 c2 =>
      if c2 = c ∧ rows2.all (fun r => r.length == c) then
        (listSetSlice rows i j rows2).map (fun rs => NpArray.stereo rs c)
      else Option.none
  | _, _, _, _ => Option.none

/-- arr[s:e] for whole arrays (slicing acts on the first axis). -/
def npSliceArr : NpArray → Option Int → Option Int → NpArray
  | .mono xs, s, e => .mono (listSlice xs s e)
  | .stereo rows c, s, e => .stereo (listSlice rows s e) c

/-- numpy.concatenate((a, b)): joins along the first axis; ranks and channel
counts must agree. -/
def npConcat : NpArray → NpArray → Option NpArray
  | .mono xs, .mono ys => some (.mono (xs ++ ys))
  | .stereo r1 c1, .stereo r2 c2 =>
      if c1 = c2 then some (.stereo (r1 ++ r2) c1) else Option.none
  | _, _ => Option.none

/-- A single indexing result: a bare int16 sample (1-d array) or one
per-channel row (2-d array). -/
inductive Sample where
  | one (v : Int)
  | row (r : List Int)
  deriving DecidableEq

/-- arr[i] for an integer index: negative indices count from the end;
anything out of range raises IndexError. -/
def npGetInt (arr : NpArray) (i : Int) : Except PyErr Sample :=
  match arr with
  | .mono xs =>
      let j := if i < 0 then i + xs.length else i
      if 0 ≤ j ∧ j < (xs.length : Int) then .ok (.one (xs.getD j.toNat 0))
      else .error .indexError
  | .stereo rows _ =>
      let j := if i < 0 then i + rows.length else i
      if 0 ≤ j ∧ j < (rows.length : Int) then .ok (.row (rows.getD j.toNat []))
      else .error .indexError

/-- The observable state of an AudioData object. -/
structure AudioData where
  samplerate : Int
  numchannels : Nat
  data : Option NpArray
  endindex : Nat
  deriving DecidableEq

/-- AudioData.__init__(ndarray, shape, samplerate=44100, numchannels=2).
If shape is omitted and an ndarray is given, a zero array of the ndarray's
shape is allocated; if shape is given, a zero array of that shape; otherwise
data is None.  A given ndarray is then copied into the front of the backing
array via slice assignment and endindex is set to its length. -/
def AudioData.init (ndarray : Option NpArray) (shape : Option NpShape)
    (samplerate : Int) (numchannels : Nat) : Except PyErr AudioData :=
  let data0 : Option NpArray :=
    match shape, ndarray with
    | Option.none, some arr => some (npZerosLike arr)
    | some sh, _ => some (npZeros sh)
    | Option.none, Option.none => Option.none
  match ndarray with
  | Option.none => .ok ⟨samplerate, numchannels, data0, 0⟩
  | some arr =>
      match data0 with
      | Option.none => .error .typeError
      | some d0 =>
          match npSetSlice d0 0 (arr.frames) arr with
          | Option.none => .error .valueError
          | some d1 => .ok ⟨samplerate, numchannels, some d1, arr.frames⟩

/-- A segment descriptor: an object exposing start and duration in float
seconds. -/
structure Seg where
  start : ℚ
  duration : ℚ
  deriving DecidableEq

/-- A Python slice bound as it occurs in this module: an int, a float, a
segment object, or None. -/
inductive Bound where
  | int (i : Int)
  | float (q : ℚ)
  | seg (s : Seg)
  | none
  deriving DecidableEq

/-- An index argument to AudioData.__getitem__: int, float, segment object,
or a slice (whose step is always None in this module). -/
inductive Idx where
  | int (i : Int)
  | float (q : ℚ)
  | seg (s : Seg)
  | sl (start stop : Bound)
  deriving DecidableEq

/-- The index after __getitem__'s normalisation steps: an integer sample
index or a slice. -/
inductive ResolvedIdx where
  | int (i : Int)
  | sl (start stop : Bound)
  deriving DecidableEq

/-- The two conversions at the top of AudioData.__getitem__: a float index
becomes int(index*samplerate); an object with start and duration becomes
slice(start, start+duration); a slice whose start has a start attribute and
whose stop has start and duration attributes becomes
slice(start.start, stop.start+stop.duration).  Only segment objects carry
start/duration attributes among the values indexed with in this module. -/
def resolveIdx (samplerate : Int) : Idx → ResolvedIdx
  | .int i => .int i
  | .float q => .int (pyInt (q * (samplerate : ℚ)))
  | .seg s => .sl (.float s.start) (.float (s.start + s.duration))
  | .sl (.seg s1) (.seg s2) => .sl (.float s1.start) (.float (s2.start + s2.duration))
  | .sl b1 b2 => .sl b1 b2

/-- Resolution of slice bounds inside AudioData.getslice: a float start makes
both bounds get multiplied by the sample rate (int() truncation; an int stop
times an int rate is already an int); otherwise bounds pass to numpy
unchanged, where only ints and None are valid (a float or object bound at the
numpy level raises TypeError). -/
def resolveBounds (samplerate : Int) (start stop : Bound) :
    Except PyErr (Option Int × Option Int) :=
  match start with
  | .float q =>
      match stop with
      | .float r =>
          .ok (some (pyInt (q * (samplerate : ℚ))), some (pyInt (r * (samplerate : ℚ))))
      | .int m => .ok (some (pyInt (q * (samplerate : ℚ))), some (m * samplerate))
      | _ => .error .typeError
  | .int i =>
      match stop with
      | .int j => .ok (some i, some j)
      | .none => .ok (some i, Option.none)
      | _ => .error .typeError
  | .none =>
      match stop with
      | .int j => .ok (Option.none, some j)
      | .none => .ok (Option.none, Option.none)
      | _ => .error .typeError
  | .seg _ => .error .typeError

/-- AudioData.getslice: convert float bounds to sample indices, slice the
backing array, and wrap the result in a fresh AudioData carrying the source's
sample rate (and the constructor's default channel count). -/
def AudioData.getslice (a : AudioData) (start stop : Bound) : Except PyErr AudioData :=
  match resolveBounds a.samplerate start stop with
  | .error e => .error e
  | .ok (s, e) =>
      match a.data with
      | Option.none => .error .typeError
      | some arr => AudioData.init (some (npSliceArr arr s e)) Option.none a.samplerate 2

/-- AudioData.getsample for an integer index: plain array indexing. -/
def AudioData.getsample (a : AudioData) (i : Int) : Except PyErr Sample :=
  match a.data with
  | Option.none => .error .typeError
  | some arr => npGetInt arr i

/-- AudioData.__getitem__: normalise the index, then dispatch to getslice or
getsample. -/
def AudioData.getitem (a : AudioData) (idx : Idx) : Except PyErr (Sum Sample AudioData) :=
  match resolveIdx a.samplerate idx with
  | .int i => (a.getsample i).map Sum.inl
  | .sl b1 b2 => (a.getslice b1 b2).map Sum.inr

/-- AudioData.__add__: a buffer without data yields a copy of the other
operand's data (a fresh default-constructed AudioData); otherwise the full
backing arrays are concatenated.  Both operands lacking data raises
AttributeError (None.copy()). -/
def AudioData.add (a b : AudioData) : Except PyErr AudioData :=
  match a.data with
  | Option.none =>
      match b.data with
      | Option.none => .error .attributeError
      | some barr => AudioData.init (some barr) Option.none 44100 2
  | some sarr =>
      match b.data with
      | Option.none => AudioData.init (some sarr) Option.none 44100 2
      | some barr =>
          match npConcat sarr barr with
          | Option.none => .error .valueError
          | some carr => AudioData.init (some carr) Option.none 44100 2

/-- AudioData.append: self.data[endindex : endindex+len(other)] = other.data[0:],
then endindex += len(other).  A buffer without data on either side raises
TypeError; a failed numpy slice assignment raises ValueError and leaves the
state unchanged. -/
def AudioData.append (a other : AudioData) : Except PyErr AudioData :=
  match other.data with
  | Option.none => .error .typeError
  | some oarr =>
      match a.data with
      | Option.none => .error .typeError
      | some sarr =>
          match npSetSlice sarr (a.endindex : Int)
              ((a.endindex : Int) + (oarr.frames : Int)) oarr with
          | Option.none => .error .valueError
          | some arr2 =>
              .ok { a with data := some arr2, endindex := a.endindex + oarr.frames }

/-- AudioData.__len__: allocated capacity (0 when uninitialized). -/
def AudioData.len (a : AudioData) : Nat :=
  match a.data with
  | some arr => arr.frames
  | Option.none => 0

/-- struct.pack of one unsigned 16-bit value, little endian (also the byte
serialisation of one int16 sample, which Python reduces mod 2^16). -/
def le2 (v : Int) : List Nat :=
  let u := (v % 65536).toNat
  [u % 256, u / 256]

/-- struct.pack of one unsigned 32-bit value, little endian (values are
reduced mod 2^32). -/
def le4 (v : Int) : List Nat :=
  let u := (v % 4294967296).toNat
  [u % 256, u / 256 % 256, u / 65536 % 256, u / 16777216 % 256]

/-- The little-endian byte stream of a list of int16 samples. -/
def bytesOfSamples : List Int → List Nat
  | [] => []
  | v :: vs => le2 v ++ bytesOfSamples vs

/-- Row-major flattening of a 2-d array (the order ndarray.tofile writes). -/
def rowsFlat : List (List Int) → List Int
  | [] => []
  | r :: rs => r ++ rowsFlat rs

/-- arr.nbytes: total element count (by shape) times itemsize 2. -/
def NpArray.nbytes : NpArray → Nat
  | .mono xs => 2 * xs.length
  | .stereo rows c => 2 * (rows.length * c)

/-- arr.tofile: the raw little-endian bytes of the whole array, row-major. -/
def npBytes : NpArray → List Nat
  | .mono xs => bytesOfSamples xs
  | .stereo rows _ => bytesOfSamples (rowsFlat rows)

/-- Channel count as computed in AudioData.save: 1 for a 1-d array, else
shape[1]. -/
def nocOf : NpArray → Nat
  | .mono _ => 1
  | .stereo _ c => c

/-- The byte stream AudioData.save writes, for a buffer with sample rate
`samplerate` and backing array `arr`: 'RIFF', the patched size field
(filesize - 8 = 36 + nbytes, written by the final seek/write), 'WAVE',
'fmt ', then struct.pack('lhHLLHH', 16, 1, noc, samplerate, byte rate,
block align, 16) in the standard (32-bit long, unpadded) little-endian
layout the code is written for, then 'data', the data size nbytes, and the
raw bytes of the whole backing array.  bits = dtype.itemsize*8 = 16, so
bits/8 = 2; byte rate = samplerate*2*noc and block align = noc*2 as in the
source. -/
def wavFile (samplerate : Int) (arr : NpArray) : List Nat :=
  let noc : Nat := nocOf arr
  let sbytes : Int := samplerate * 2 * (noc : Int)
  let ba : Int := (noc : Int) * 2
  let nb : Nat := arr.nbytes
  [82, 73, 70, 70] ++ le4 ((36 : Int) + (nb : Int)) ++ [87, 65, 86, 69] ++
    [102, 109, 116, 32] ++ le4 16 ++ le2 1 ++ le2 (noc : Int) ++
    le4 samplerate ++ le4 sbytes ++ le2 ba ++ le2 16 ++ [100, 97, 116, 97] ++
    le4 (nb : Int) ++ npBytes arr

/-- AudioData.save modulo the filesystem: the byte stream written to the
named file.  Saving a buffer whose data is None raises AttributeError
(None.ndim). -/
def AudioData.save (a : AudioData) : Except PyErr (List Nat) :=
  match a.data with
  | Option.none => .error .attributeError
  | some arr => .ok (wavFile a.samplerate arr)

/-- One iteration of the getpieces loop: newAD.append(audioData[s]).  A
segment index always resolves to a slice, so the sample branch is
unreachable; it is mapped to an error for totality. -/
def getpiecesStep (audioData : AudioData) (acc : AudioData) (s : Seg) :
    Except PyErr AudioData :=
  match audioData.getitem (.seg s) with
  | .error e => .error e
  | .ok (.inl _) => .error .typeError
  | .ok (.inr piece) => acc.append piece

/-- The capacity getpieces allocates: the sum over the segments of
int(duration * samplerate) (truncation per segment) plus the fixed
100000-sample margin. -/
def durOf (a : AudioData) (segs : List Seg) : Int :=
  (segs.foldl (fun d s => d + pyInt (s.duration * (a.samplerate : ℚ))) 0) + 100000

/-- The shape getpieces allocates: n frames with the source array's channel
layout (shape[1] kept for 2-d sources). -/
def pieceShape (arr : NpArray) (n : Nat) : NpShape :=
  match arr with
  | .mono _ => .one n
  | .stereo _ c => .two n c

/-- getpieces: sum the segment durations in samples, add the fixed
100000-sample margin, allocate a zero buffer of that capacity with the
source's channel shape and sample rate, then append each segment's indexed
sub-range in input order.  numpy.zeros raises on a negative dimension (only
reachable with negative durations). -/
def getpieces (audioData : AudioData) (segs : List Seg) : Except PyErr AudioData :=
  match audioData.data with
  | Option.none => .error .attributeError
  | some arr =>
      if durOf audioData segs < 0 then .error .valueError
      else
        match AudioData.init Option.none (some (pieceShape arr (durOf audioData segs).toNat))
            audioData.samplerate (nocOf arr) with
        | .error e => .error e
        | .ok newAD => segs.foldlM (getpiecesStep audioData) newAD

/-- The first-axis shape data preserved by appends: frames plus, for 2-d
arrays, the channel count. -/
def NpArray.chanShape : NpArray → Option Nat
  | .mono _ => Option.none
  | .stereo _ c => some c

/-! ## Helper lemmas -/

lemma getattribute_id {V : Type} (fetch : String → String → V)
    (a : AudioAnalysis V) (name : String) :
    ((a.getattribute fetch name).2.1).id = a.id := by
  unfold AudioAnalysis.getattribute
  split
  · cases hc : a.cache name <;> simp
  · rfl

lemma refreshStep_id {V : Type} (fetch : String → String → V)
    (acc : AudioAnalysis V × Nat) (name : String) :
    ((AudioAnalysis.refreshStep fetch acc name).1).id = acc.1.id := by
  simp only [AudioAnalysis.refreshStep]
  rw [getattribute_id]

lemma refreshStep_count {V : Type} (fetch : String → String → V)
    (acc : AudioAnalysis V × Nat) (name : String) (hmem : name ∈ CACHED_VARIABLES) :
    (AudioAnalysis.refreshStep fetch acc name).2 = acc.2 + 1 := by
  simp [AudioAnalysis.refreshStep, AudioAnalysis.getattribute, hmem]

lemma refreshStep_cache_self {V : Type} (fetch : String → String → V)
    (acc : AudioAnalysis V × Nat) (name : String) (hmem : name ∈ CACHED_VARIABLES) :
    ((AudioAnalysis.refreshStep fetch acc name).1).cache name =
      some (fetch name acc.1.id) := by
  simp [AudioAnalysis.refreshStep, AudioAnalysis.getattribute, hmem]

lemma refreshStep_cache_other {V : Type} (fetch : String → String → V)
    (acc : AudioAnalysis V × Nat) (name n : String) (hne : n ≠ name) :
    ((AudioAnalysis.refreshStep fetch acc name).1).cache n = acc.1.cache n := by
  simp only [AudioAnalysis.refreshStep, AudioAnalysis.getattribute]
  split
  · simp [hne]
  · simp [hne]

lemma refreshFold_id {V : Type} (fetch : String → String → V) :
    ∀ (names : List String) (acc : AudioAnalysis V × Nat),
      ((names.foldl (AudioAnalysis.refreshStep fetch) acc).1).id = acc.1.id := by
  intro names
  induction names with
  | nil => intro acc; rfl
  | cons hd tl ih =>
      intro acc
      rw [List.foldl_cons, ih, refreshStep_id]

lemma refreshFold_count {V : Type} (fetch : String → String → V) :
    ∀ (names : List String) (acc : AudioAnalysis V × Nat),
      (∀ n ∈ names, n ∈ CACHED_VARIABLES) →
      (names.foldl (AudioAnalysis.refreshStep fetch) acc).2 = acc.2 + names.length := by
  intro names
  induction names with
  | nil => intro acc _; simp
  | cons hd tl ih =>
      intro acc hmem
      rw [List.foldl_cons, ih _ (fun n hn => hmem n (List.mem_cons_of_mem hd hn)),
        refreshStep_count fetch acc hd (hmem hd (List.mem_cons_self hd tl))]
      simp [Nat.add_assoc, Nat.add_comm 1 tl.length]

lemma refreshFold_cache_notmem {V : Type} (fetch : String → String → V) :
    ∀ (names : List String) (acc : AudioAnalysis V × Nat) (n : String),
      n ∉ names →
      ((names.foldl (AudioAnalysis.refreshStep fetch) acc).1).cache n = acc.1.cache n := by
  intro names
  induction names with
  | nil => intro acc n _; rfl
  | cons hd tl ih =>
      intro acc n hn
      rw [List.foldl_cons, ih _ n (fun h => hn (List.mem_cons_of_mem hd h)),
        refreshStep_cache_other fetch acc hd n (fun h => hn (h ▸ List.mem_cons_self hd tl))]

lemma refreshFold_cache_mem {V : Type} (fetch : String → String → V) :
    ∀ (names : List String) (acc : AudioAnalysis V × Nat) (n : String),
      (∀ m ∈ names, m ∈ CACHED_VARIABLES) → n ∈ names →
      ((names.foldl (AudioAnalysis.refreshStep fetch) acc).1).cache n =
        some (fetch n acc.1.id) := by
  intro names
  induction names with
  | nil => intro acc n _ hn; cases hn
  | cons hd tl ih =>
      intro acc n hmem hn
      rw [List.foldl_cons]
      by_cases htl : n ∈ tl
      · rw [ih _ n (fun m hm => hmem m (List.mem_cons_of_mem hd hm)) htl,
          refreshStep_id]
      · have hhd : n = hd := by
          rcases List.mem_cons.mp hn with h | h
          · exact h
          · exact absurd h htl
        subst hhd
        rw [refreshFold_cache_notmem fetch tl _ n htl,
          refreshStep_cache_self fetch acc n (hmem n (List.mem_cons_self n tl))]

lemma listSetSlice_all {α : Type} [Inhabited α] (zs ys : List α)
    (h : zs.length = ys.length) :
    listSetSlice zs (0 : Int) ((ys.length : Nat) : Int) ys = some ys := by
  have hs : clampIdx zs.length (0 : Int) = 0 := by
    unfold clampIdx
    rw [if_neg (by omega)]
    omega
  have he : clampIdx zs.length ((ys.length : Nat) : Int) = ys.length := by
    unfold clampIdx
    rw [if_neg (by omega)]
    omega
  simp only [listSetSlice, hs, he]
  rw [if_pos (by omega)]
  have hdrop : zs.drop (0 + (ys.length - 0)) = [] := by
    rw [List.drop_eq_nil_iff]
    omega
  rw [hdrop]
  simp

lemma initAD_eq (arr : NpArray) (sr : Int) (nc : Nat) :
    AudioData.init (some arr) Option.none sr nc =
      match npSetSlice (npZerosLike arr) 0 ((arr.frames : Nat) : Int) arr with
      | Option.none => .error .valueError
      | some d1 => .ok ⟨sr, nc, some d1, arr.frames⟩ := rfl

lemma initAD_copy (arr : NpArray) (hwf : arr.wfb = true) (sr : Int) (nc : Nat) :
    AudioData.init (some arr) Option.none sr nc = .ok ⟨sr, nc, some arr, arr.frames⟩ := by
  rw [initAD_eq]
  cases arr with
  | mono ys =>
      have hset : npSetSlice (npZerosLike (.mono ys)) 0
          (((NpArray.mono ys).frames : Nat) : Int) (.mono ys) = some (.mono ys) := by
        simp only [npZerosLike, NpArray.shape, npZeros, NpArray.frames, npSetSlice]
        rw [listSetSlice_all _ _ (by simp)]
        rfl
      rw [hset]
  | stereo rows c =>
      have hall : rows.all (fun r => r.length == c) = true := hwf
      have hset : npSetSlice (npZerosLike (.stereo rows c)) 0
          (((NpArray.stereo rows c).frames : Nat) : Int) (.stereo rows c) =
            some (.stereo rows c) := by
        simp only [npZerosLike, NpArray.shape, npZeros, NpArray.frames, npSetSlice]
        rw [if_pos ⟨trivial, hall⟩, listSetSlice_all _ _ (by simp)]
        rfl
      rw [hset]

lemma initAD_copy_mono (ys : List Int) (sr : Int) (nc : Nat) :
    AudioData.init (some (.mono ys)) Option.none sr nc =
      .ok ⟨sr, nc, some (.mono ys), ys.length⟩ :=
  initAD_copy (.mono ys) rfl sr nc

lemma clampIdx_natCast (n e : Nat) : clampIdx n ((e : Nat) : Int) = min e n := by
  unfold clampIdx
  rw [if_neg (by omega)]
  omega

lemma clampIdx_add_natCast (n e m : Nat) :
    clampIdx n (((e : Nat) : Int) + ((m : Nat) : Int)) = min (e + m) n := by
  unfold clampIdx
  rw [if_neg (by omega)]
  omega

lemma listSetSlice_fits {α : Type} [Inhabited α] (xs ys : List α) (e : Nat)
    (h : e + ys.length ≤ xs.length) :
    listSetSlice xs ((e : Nat) : Int) (((e : Nat) : Int) + ((ys.length : Nat) : Int)) ys =
      some (xs.take e ++ ys ++ xs.drop (e + ys.length)) := by
  simp only [listSetSlice, clampIdx_natCast, clampIdx_add_natCast]
  have h1 : min e xs.length = e := by omega
  have h2 : min (e + ys.length) xs.length = e + ys.length := by omega
  rw [h1, h2]
  have h3 : e + ys.length - e = ys.length := by omega
  rw [h3, if_pos rfl]

lemma listSetSlice_overflow {α : Type} [Inhabited α] (xs ys : List α) (e : Nat)
    (he : e ≤ xs.length) (hover : xs.length < e + ys.length) (hne1 : ys.length ≠ 1) :
    listSetSlice xs ((e : Nat) : Int) (((e : Nat) : Int) + ((ys.length : Nat) : Int)) ys =
      Option.none := by
  simp only [listSetSlice, clampIdx_natCast, clampIdx_add_natCast]
  rw [if_neg (by omega), if_neg hne1]

lemma listSetSlice_bcast_full {α : Type} [Inhabited α] (xs ys : List α)
    (h1 : ys.length = 1) :
    listSetSlice xs ((xs.length : Nat) : Int)
        (((xs.length : Nat) : Int) + ((ys.length : Nat) : Int)) ys = some xs := by
  simp only [listSetSlice, clampIdx_natCast, clampIdx_add_natCast]
  rw [if_neg (by omega), if_pos h1]
  have e1 : min xs.length xs.length = xs.length := by omega
  have e2 : min (xs.length + ys.length) xs.length = xs.length := by omega
  rw [e1, e2]
  simp

lemma append_def (a o : AudioData) :
    a.append o =
      match o.data with
      | Option.none => .error .typeError
      | some oarr =>
          match a.data with
          | Option.none => .error .typeError
          | some sarr =>
              match npSetSlice sarr (a.endindex : Int)
                  ((a.endindex : Int) + (oarr.frames : Int)) oarr with
              | Option.none => .error .valueError
              | some arr2 =>
                  .ok { a with data := some arr2, endindex := a.endindex + oarr.frames } := rfl

lemma append_mono_ok (a o : AudioData) (xs ys : List Int)
    (ha : a.data = some (.mono xs)) (ho : o.data = some (.mono ys))
    (hfit : a.endindex + ys.length ≤ xs.length) :
    a.append o = .ok ⟨a.samplerate, a.numchannels,
      some (.mono (xs.take a.endindex ++ ys ++ xs.drop (a.endindex + ys.length))),
      a.endindex + ys.length⟩ := by
  have hset : npSetSlice (.mono xs) (a.endindex : Int)
      ((a.endindex : Int) + ((ys.length : Nat) : Int)) (.mono ys) =
        some (.mono (xs.take a.endindex ++ ys ++ xs.drop (a.endindex + ys.length))) := by
    simp only [npSetSlice]
    rw [listSetSlice_fits xs ys a.endindex hfit]
    rfl
  rw [append_def, ho, ha]
  simp only [NpArray.frames]
  rw [hset]

lemma append_mono_overflow (a o : AudioData) (xs ys : List Int)
    (ha : a.data = some (.mono xs)) (ho : o.data = some (.mono ys))
    (hcur : a.endindex ≤ xs.length) (hover : xs.length < a.endindex + ys.length)
    (hne1 : ys.length ≠ 1) :
    a.append o = .error .valueError := by
  have hset : npSetSlice (.mono xs) (a.endindex : Int)
      ((a.endindex : Int) + ((ys.length : Nat) : Int)) (.mono ys) = Option.none := by
    simp only [npSetSlice]
    rw [listSetSlice_overflow xs ys a.endindex hcur hover hne1]
    rfl
  rw [append_def, ho, ha]
  simp only [NpArray.frames]
  rw [hset]

lemma append_mono_bcast (a o : AudioData) (xs ys : List Int)
    (ha : a.data = some (.mono xs)) (ho : o.data = some (.mono ys))
    (hfull : a.endindex = xs.length) (h1 : ys.length = 1) :
    a.append o = .ok ⟨a.samplerate, a.numchannels, some (.mono xs), a.endindex + 1⟩ := by
  have hset : npSetSlice (.mono xs) (a.endindex : Int)
      ((a.endindex : Int) + ((ys.length : Nat) : Int)) (.mono ys) =
        some (.mono xs) := by
    simp only [npSetSlice]
    rw [hfull, listSetSlice_bcast_full xs ys h1]
    rfl
  rw [append_def, ho, ha]
  simp only [NpArray.frames]
  rw [hset, h1]

lemma add_def (a b : AudioData) :
    a.add b =
      match a.data with
      | Option.none =>
          match b.data with
          | Option.none => .error .attributeError
          | some barr => AudioData.init (some barr) Option.none 44100 2
      | some sarr =>
          match b.data with
          | Option.none => AudioData.init (some sarr) Option.none 44100 2
          | some barr =>
              match npConcat sarr barr with
              | Option.none => .error .valueError
              | some carr => AudioData.init (some carr) Option.none 44100 2 := rfl

lemma add_left_none (a b : AudioData) (barr : NpArray)
    (ha : a.data = Option.none) (hb : b.data = some barr) (hwf : barr.wfb = true) :
    a.add b = .ok ⟨44100, 2, some barr, barr.frames⟩ := by
  rw [add_def, ha, hb]
  exact initAD_copy barr hwf 44100 2

lemma add_right_none (a b : AudioData) (sarr : NpArray)
    (ha : a.data = some sarr) (hb : b.data = Option.none) (hwf : sarr.wfb = true) :
    a.add b = .ok ⟨44100, 2, some sarr, sarr.frames⟩ := by
  rw [add_def, ha, hb]
  exact initAD_copy sarr hwf 44100 2

lemma add_both (a b : AudioData) (sarr barr carr : NpArray)
    (ha : a.data = some sarr) (hb : b.data = some barr)
    (hcat : npConcat sarr barr = some carr) (hwf : carr.wfb = true) :
    a.add b = .ok ⟨44100, 2, some carr, carr.frames⟩ := by
  rw [add_def, ha, hb]
  simp only [hcat]
  exact initAD_copy carr hwf 44100 2

lemma npConcat_frames {sarr barr carr : NpArray} (hcat : npConcat sarr barr = some carr) :
    carr.frames = sarr.frames + barr.frames := by
  cases sarr <;> cases barr <;> simp only [npConcat] at hcat
  case mono.mono xs ys =>
      cases hcat
      simp [NpArray.frames]
  case mono.stereo xs rows c => cases hcat
  case stereo.mono rows c xs => cases hcat
  case stereo.stereo r1 c1 r2 c2 =>
      split at hcat
      · cases hcat
        simp [NpArray.frames]
      · cases hcat

lemma npConcat_wfb {sarr barr carr : NpArray} (h1 : sarr.wfb = true) (h2 : barr.wfb = true)
    (hcat : npConcat sarr barr = some carr) : carr.wfb = true := by
  cases sarr <;> cases barr <;> simp only [npConcat] at hcat
  case mono.mono xs ys => cases hcat; rfl
  case mono.stereo xs rows c => cases hcat
  case stereo.mono rows c xs => cases hcat
  case stereo.stereo r1 c1 r2 c2 =>
      split at hcat
      · cases hcat
        rename_i hc
        simp only [NpArray.wfb, List.all_append, Bool.and_eq_true] at h1 h2 ⊢
        subst hc
        exact ⟨h1, h2⟩
      · cases hcat

lemma npSliceArr_wfb (arr : NpArray) (s e : Option Int) (hwf : arr.wfb = true) :
    (npSliceArr arr s e).wfb = true := by
  cases arr with
  | mono xs => rfl
  | stereo rows c =>
      simp only [npSliceArr, NpArray.wfb, List.all_eq_true] at hwf ⊢
      intro r hr
      exact hwf r (List.mem_of_mem_drop (List.mem_of_mem_take hr))

lemma getslice_def (a : AudioData) (start stop : Bound) :
    a.getslice start stop =
      match resolveBounds a.samplerate start stop with
      | .error e => .error e
      | .ok (s, e) =>
          match a.data with
          | Option.none => .error .typeError
          | some arr =>
              AudioData.init (some (npSliceArr arr s e)) Option.none a.samplerate 2 := rfl

lemma getslice_int (a : AudioData) (arr : NpArray) (i j : Int)
    (hdata : a.data = some arr) (hwf : arr.wfb = true) :
    a.getslice (.int i) (.int j) = .ok ⟨a.samplerate, 2,
      some (npSliceArr arr (some i) (some j)),
      (npSliceArr arr (some i) (some j)).frames⟩ := by
  rw [getslice_def]
  simp only [resolveBounds, hdata]
  exact initAD_copy _ (npSliceArr_wfb arr (some i) (some j) hwf) a.samplerate 2

lemma le4_length (v : Int) : (le4 v).length = 4 := rfl

lemma le2_length (v : Int) : (le2 v).length = 2 := rfl

lemma bytesOfSamples_length (xs : List Int) :
    (bytesOfSamples xs).length = 2 * xs.length := by
  induction xs with
  | nil => rfl
  | cons v vs ih => simp [bytesOfSamples, le2_length, ih]; omega

lemma rowsFlat_length (rows : List (List Int)) (c : Nat)
    (h : rows.all (fun r => r.length == c) = true) :
    (rowsFlat rows).length = rows.length * c := by
  induction rows with
  | nil => simp [rowsFlat]
  | cons r rs ih =>
      rw [List.all_cons, Bool.and_eq_true] at h
      have hr : r.length = c := by
        have := h.1
        simpa using this
      simp [rowsFlat, hr, ih h.2]
      ring

lemma npBytes_length (arr : NpArray) (hwf : arr.wfb = true) :
    (npBytes arr).length = arr.nbytes := by
  cases arr with
  | mono xs => simp [npBytes, NpArray.nbytes, bytesOfSamples_length]
  | stereo rows c =>
      simp only [npBytes, NpArray.nbytes, bytesOfSamples_length]
      rw [rowsFlat_length rows c hwf]

lemma prefix_extract {A C : List Nat} {k : Nat} (hA : A.length = k) :
    (A ++ C).take k = A := List.take_left' hA

lemma tail_extract {A C : List Nat} {n : Nat} (hA : A.length = n) :
    (A ++ C).drop n = C := List.drop_left' hA

lemma seg_extract {A B C : List Nat} {n k : Nat} (hA : A.length = n) (hB : B.length = k) :
    ((A ++ (B ++ C)).drop n).take k = B := by
  rw [List.drop_left' hA, List.take_left' hB]

lemma except_bind_ok {ε α β : Type} (a : α) (f : α → Except ε β) :
    (Except.ok a >>= f : Except ε β) = f a := rfl

lemma except_bind_error {ε α β : Type} (e : ε) (f : α → Except ε β) :
    (Except.error e >>= f : Except ε β) = Except.error e := rfl

lemma initAD_shapeAlloc (sh : NpShape) (sr : Int) (nc : Nat) :
    AudioData.init Option.none (some sh) sr nc = .ok ⟨sr, nc, some (npZeros sh), 0⟩ := rfl

lemma npZeros_shape (sh : NpShape) : (npZeros sh).shape = sh := by
  cases sh <;> simp [npZeros, NpArray.shape]

lemma clampIdx_le (n : Nat) (i : Int) : clampIdx n i ≤ n := by
  unfold clampIdx
  split <;> omega

lemma listSetSlice_length {α : Type} [Inhabited α] {xs ys rs : List α} {i j : Int}
    (h : listSetSlice xs i j ys = some rs) : rs.length = xs.length := by
  have hs := clampIdx_le xs.length i
  have he := clampIdx_le xs.length j
  simp only [listSetSlice] at h
  by_cases hk : ys.length = clampIdx xs.length j - clampIdx xs.length i
  · rw [if_pos hk] at h
    cases h
    simp only [List.length_append, List.length_take, List.length_drop]
    omega
  · rw [if_neg hk] at h
    by_cases h1 : ys.length = 1
    · rw [if_pos h1] at h
      cases h
      simp only [List.length_append, List.length_take, List.length_drop,
        List.length_replicate]
      omega
    · rw [if_neg h1] at h
      cases h

lemma npSetSlice_shape {t src out : NpArray} {i j : Int}
    (h : npSetSlice t i j src = some out) : out.shape = t.shape := by
  cases t <;> cases src <;> simp only [npSetSlice] at h
  case mono.mono xs ys =>
      rcases Option.map_eq_some'.mp h with ⟨rs, hrs, hout⟩
      subst hout
      simp [NpArray.shape, listSetSlice_length hrs]
  case mono.stereo xs rows c => simp at h
  case stereo.mono rows c xs => simp at h
  case stereo.stereo r1 c1 r2 c2 =>
      split at h
      · rcases Option.map_eq_some'.mp h with ⟨rs, hrs, hout⟩
        subst hout
        simp [NpArray.shape, listSetSlice_length hrs]
      · simp at h

lemma append_ok_shape {acc p r : AudioData} (h : acc.append p = .ok r) :
    r.data.map NpArray.shape = acc.data.map NpArray.shape := by
  rw [append_def] at h
  cases hp : p.data with
  | none => rw [hp] at h; cases h
  | some oarr =>
      rw [hp] at h
      cases ha : acc.data with
      | none => rw [ha] at h; cases h
      | some sarr =>
          rw [ha] at h
          have h2 : ((match npSetSlice sarr (acc.endindex : Int)
              ((acc.endindex : Int) + (oarr.frames : Int)) oarr with
            | Option.none => Except.error PyErr.valueError
            | some arr2 => Except.ok (AudioData.mk acc.samplerate acc.numchannels
                (some arr2) (acc.endindex + oarr.frames))) :
              Except PyErr AudioData) = Except.ok r := h
          cases hset : npSetSlice sarr (acc.endindex : Int)
              ((acc.endindex : Int) + (oarr.frames : Int)) oarr with
          | none => rw [hset] at h2; cases h2
          | some arr2 =>
              rw [hset] at h2
              cases h2
              simp [ha, npSetSlice_shape hset]

lemma getpiecesStep_shape {src acc m : AudioData} {s : Seg}
    (h : getpiecesStep src acc s = .ok m) :
    m.data.map NpArray.shape = acc.data.map NpArray.shape := by
  unfold getpiecesStep at h
  cases hg : src.getitem (.seg s) with
  | error e => rw [hg] at h; cases h
  | ok v =>
      rw [hg] at h
      cases v with
      | inl smp => cases h
      | inr piece => exact append_ok_shape h

lemma getpiecesFold_shape (src : AudioData) :
    ∀ (segs : List Seg) (acc r : AudioData),
      List.foldlM (getpiecesStep src) acc segs = .ok r →
      r.data.map NpArray.shape = acc.data.map NpArray.shape := by
  intro segs
  induction segs with
  | nil =>
      intro acc r h
      rw [List.foldlM_nil] at h
      cases h
      rfl
  | cons s tl ih =>
      intro acc r h
      rw [List.foldlM_cons] at h
      cases hstep : getpiecesStep src acc s with
      | error e =>
          rw [hstep, except_bind_error] at h
          cases h
      | ok m =>
          rw [hstep, except_bind_ok] at h
          rw [ih m r h, getpiecesStep_shape hstep]

lemma getpieces_def (a : AudioData) (segs : List Seg) :
    getpieces a segs =
      match a.data with
      | Option.none => .error .attributeError
      | some arr =>
          if durOf a segs < 0 then .error .valueError
          else
            match AudioData.init Option.none
                (some (pieceShape arr (durOf a segs).toNat)) a.samplerate (nocOf arr) with
            | .error e => .error e
            | .ok newAD => List.foldlM (getpiecesStep a) newAD segs := rfl

lemma getitem_seg_mono (a : AudioData) (xs : List Int) (s : Seg)
    (hdata : a.data = some (.mono xs)) :
    a.getitem (.seg s) = .ok (.inr ⟨a.samplerate, 2,
      some (.mono (listSlice xs (some (pyInt (s.start * (a.samplerate : ℚ))))
        (some (pyInt ((s.start + s.duration) * (a.samplerate : ℚ)))))),
      (listSlice xs (some (pyInt (s.start * (a.samplerate : ℚ))))
        (some (pyInt ((s.start + s.duration) * (a.samplerate : ℚ))))).length⟩) := by
  have hg : a.getitem (.seg s) =
      (a.getslice (.float s.start) (.float (s.start + s.duration))).map Sum.inr := rfl
  rw [hg, getslice_def]
  simp only [resolveBounds, hdata, npSliceArr]
  rw [initAD_copy_mono]
  rfl

lemma listSlice_length_int {α : Type} (xs : List α) (i j : Int)
    (h0 : 0 ≤ i) (hij : i ≤ j) (hj : j ≤ (xs.length : Int)) :
    (listSlice xs (some i) (some j)).length = (j - i).toNat := by
  simp only [listSlice]
  unfold clampIdx
  rw [if_neg (by omega), if_neg (by omega)]
  simp only [List.length_take, List.length_drop]
  omega

/-! ## Claims -/

/-- C1: for every cached field name and every AudioAnalysis whose slot for that
field is unset, the first access fetches get_<name>(id) exactly once, stores
the result and returns it; a second access with no intervening refresh returns
the memoized value, performs no fetch, and leaves the state unchanged. -/
theorem C1_cached_field_fetched_once {V : Type} (fetch : String → String → V)
    (a : AudioAnalysis V) (name : String)
    (hmem : name ∈ CACHED_VARIABLES) (hunset : a.cache name = none) :
    (a.getattribute fetch name).2.2 = 1 ∧
    (a.getattribute fetch name).1 = some (fetch name a.id) ∧
    ((a.getattribute fetch name).2.1).cache name = some (fetch name a.id) ∧
    (((a.getattribute fetch name).2.1).getattribute fetch name).2.2 = 0 ∧
    (((a.getattribute fetch name).2.1).getattribute fetch name).1 = some (fetch name a.id) ∧
    (((a.getattribute fetch name).2.1).getattribute fetch name).2.1 =
      (a.getattribute fetch name).2.1 := by
  have h1 : a.getattribute fetch name =
      (some (fetch name a.id),
       { a with cache := fun n => if n = name then some (fetch name a.id) else a.cache n }, 1) := by
    unfold AudioAnalysis.getattribute
    rw [if_pos hmem, hunset]
  have hc : (fun n => if n = name then some (fetch name a.id) else a.cache n) name
      = some (fetch name a.id) := by simp
  refine ⟨by rw [h1], by rw [h1], ?_, ?_, ?_, ?_⟩
  · rw [h1]; exact hc
  · rw [h1]; unfold AudioAnalysis.getattribute
    rw [if_pos hmem]; simp
  · rw [h1]; unfold AudioAnalysis.getattribute
    rw [if_pos hmem]; simp
  · rw [h1]; unfold AudioAnalysis.getattribute
    rw [if_pos hmem]; simp

theorem C1_cached_field_fetched_once_witness :
    ((AudioAnalysis.mk "t1" (fun _ => (none : Option Nat))).getattribute
        (fun _ _ => 7) "bars").2.2 = 1 ∧
    ((((AudioAnalysis.mk "t1" (fun _ => (none : Option Nat))).getattribute
        (fun _ _ => 7) "bars").2.1).getattribute (fun _ _ => 7) "bars").2.2 = 0 :=
  ⟨(C1_cached_field_fetched_once (fun _ _ => 7)
      (AudioAnalysis.mk "t1" (fun _ => none)) "bars" (by decide) rfl).1,
   (C1_cached_field_fetched_once (fun _ _ => 7)
      (AudioAnalysis.mk "t1" (fun _ => none)) "bars" (by decide) rfl).2.2.2.1⟩

/-- C6: constructing an AudioAnalysis from a non-string argument raises
TypeError (the spec's InvalidArgument) with no upload performed and no track
id resolved, for every filesystem state and upload collaborator. -/
theorem C6_nonstring_init_rejected (V : Type) (isfile : String → Bool)
    (uploadId : String → String) :
    AudioAnalysis.init V isfile uploadId PyArg.nonstr = (.error .typeError, 0) := rfl

/-- C7: refreshCachedVariables resets and eagerly re-fetches every cached
field: it performs exactly one fetch per cached variable (14 in total)
regardless of which fields were previously populated, and afterwards every
cached field holds the freshly fetched value. -/
theorem C7_refresh_fetches_all {V : Type} (fetch : String → String → V)
    (a : AudioAnalysis V) :
    (a.refreshCachedVariables fetch).2 = CACHED_VARIABLES.length ∧
    (a.refreshCachedVariables fetch).2 = 14 ∧
    ∀ name, name ∈ CACHED_VARIABLES →
      ((a.refreshCachedVariables fetch).1).cache name = some (fetch name a.id) := by
  refine ⟨?_, ?_, ?_⟩
  · unfold AudioAnalysis.refreshCachedVariables
    rw [refreshFold_count fetch CACHED_VARIABLES (a, 0) (fun _ h => h)]
    rfl
  · unfold AudioAnalysis.refreshCachedVariables
    rw [refreshFold_count fetch CACHED_VARIABLES (a, 0) (fun _ h => h)]
    rfl
  · intro name hname
    unfold AudioAnalysis.refreshCachedVariables
    exact refreshFold_cache_mem fetch CACHED_VARIABLES (a, 0) name (fun _ h => h) hname

theorem C7_refresh_fetches_all_witness :
    ((AudioAnalysis.mk "x" (fun _ => some 0)).refreshCachedVariables
        (fun _ _ => (3 : Nat))).2 = 14 ∧
    (((AudioAnalysis.mk "x" (fun _ => some 0)).refreshCachedVariables
        (fun _ _ => (3 : Nat))).1).cache "tempo" = some 3 :=
  ⟨(C7_refresh_fetches_all (fun _ _ => 3) (AudioAnalysis.mk "x" (fun _ => some 0))).2.1,
   (C7_refresh_fetches_all (fun _ _ => 3)
      (AudioAnalysis.mk "x" (fun _ => some 0))).2.2 "tempo" (by decide)⟩

/-- C2 as stated is false: the float-to-sample conversion truncates rather
than rounds.  On a 10 Hz mono buffer holding samples 10, 20, 30, indexing
with float 0.17 hits sample index int(0.17*10) = 1 (value 20), while the
claimed conversion round(0.17*10) = 2 would hit sample index 2 (value 30). -/
theorem C2_round_counterexample :
    (AudioData.mk 10 2 (some (.mono [10, 20, 30])) 3).getitem (.float (17/100)) =
      .ok (.inl (.one 20)) ∧
    round ((17/100 : ℚ) * ((10 : Int) : ℚ)) = 2 ∧
    (AudioData.mk 10 2 (some (.mono [10, 20, 30])) 3).getitem (.int 2) =
      .ok (.inl (.one 30)) ∧
    (AudioData.mk 10 2 (some (.mono [10, 20, 30])) 3).getitem (.float (17/100)) ≠
      (AudioData.mk 10 2 (some (.mono [10, 20, 30])) 3).getitem
        (.int (round ((17/100 : ℚ) * ((10 : Int) : ℚ)))) := by
  have hr : round ((17/100 : ℚ) * ((10 : Int) : ℚ)) = 2 := by
    rw [round_eq]
    norm_num
  have h : pyInt ((17/100 : ℚ) * ((10 : Int) : ℚ)) = 1 := by norm_num [pyInt]
  have h1 : (AudioData.mk 10 2 (some (.mono [10, 20, 30])) 3).getitem (.float (17/100)) =
      .ok (.inl (.one 20)) := by
    simp only [AudioData.getitem, resolveIdx, h, AudioData.getsample, npGetInt]
    norm_num
    rfl
  have h2 : (AudioData.mk 10 2 (some (.mono [10, 20, 30])) 3).getitem (.int 2) =
      .ok (.inl (.one 30)) := by rfl
  refine ⟨h1, hr, h2, ?_⟩
  rw [h1, hr, h2]
  intro hcontra
  simp at hcontra

/-- C2 amended: a float index v is converted to the integer sample index
int(v * samplerate), truncating toward zero (not rounding); indexing with a
float is always identical to indexing with that integer.  In particular, on
a 44100 Hz buffer, float index 1.0 is equivalent to integer index 44100. -/
theorem C2_float_index_truncates (a : AudioData) (q : ℚ) :
    a.getitem (.float q) = a.getitem (.int (pyInt (q * (a.samplerate : ℚ)))) ∧
    (a.samplerate = 44100 → a.getitem (.float 1) = a.getitem (.int 44100)) := by
  constructor
  · rfl
  · intro hsr
    have h : pyInt ((1 : ℚ) * ((44100 : Int) : ℚ)) = 44100 := by norm_num [pyInt]
    simp only [AudioData.getitem, resolveIdx, hsr, h]

theorem C2_float_index_truncates_witness :
    (AudioData.mk 44100 2 (some (.mono [1, 2, 3])) 3).getitem (.float 1) =
      (AudioData.mk 44100 2 (some (.mono [1, 2, 3])) 3).getitem (.int 44100) :=
  (C2_float_index_truncates (AudioData.mk 44100 2 (some (.mono [1, 2, 3])) 3) 1).2 rfl

/-- C3: on a 44100 Hz buffer, indexing with a slice whose bounds are the
segment descriptors (start 1.0, duration 0.5) and (start 2.0, duration 0.5)
is identical to indexing with the integer sample slice [44100 : 110250): the
start comes from the start segment's start (1.0 * 44100 = 44100) and the
stop from the stop segment's start+duration (2.5 * 44100 = 110250); on a
mono buffer the result wraps exactly the samples xs[44100:110250]. -/
theorem C3_segment_slice_bounds (a : AudioData) (hsr : a.samplerate = 44100) :
    a.getitem (.sl (.seg ⟨1, 1/2⟩) (.seg ⟨2, 1/2⟩)) =
      a.getitem (.sl (.int 44100) (.int 110250)) ∧
    ∀ xs, a.data = some (.mono xs) →
      a.getitem (.sl (.seg ⟨1, 1/2⟩) (.seg ⟨2, 1/2⟩)) =
        .ok (.inr (AudioData.mk 44100 2
          (some (.mono (listSlice xs (some 44100) (some 110250))))
          (listSlice xs (some 44100) (some 110250)).length)) := by
  have h1 : pyInt ((1 : ℚ) * ((44100 : Int) : ℚ)) = 44100 := by norm_num [pyInt]
  have h2 : pyInt (((2 : ℚ) + 1/2) * ((44100 : Int) : ℚ)) = 110250 := by norm_num [pyInt]
  have hmain : a.getitem (.sl (.seg ⟨1, 1/2⟩) (.seg ⟨2, 1/2⟩)) =
      a.getitem (.sl (.int 44100) (.int 110250)) := by
    simp only [AudioData.getitem, resolveIdx, AudioData.getslice, resolveBounds, hsr, h1, h2]
  refine ⟨hmain, ?_⟩
  intro xs hdata
  rw [hmain]
  simp only [AudioData.getitem, resolveIdx, AudioData.getslice, resolveBounds, hsr, hdata,
    npSliceArr]
  rw [initAD_copy_mono]
  simp [Except.map]

theorem C3_segment_slice_bounds_witness :
    (AudioData.mk 44100 2 (some (.mono [1, 2, 3])) 3).getitem
        (.sl (.seg ⟨1, 1/2⟩) (.seg ⟨2, 1/2⟩)) =
      (AudioData.mk 44100 2 (some (.mono [1, 2, 3])) 3).getitem
        (.sl (.int 44100) (.int 110250)) ∧
    (AudioData.mk 44100 2 (some (.mono [1, 2, 3])) 3).getitem
        (.sl (.seg ⟨1, 1/2⟩) (.seg ⟨2, 1/2⟩)) =
      .ok (.inr (AudioData.mk 44100 2
        (some (.mono (listSlice [1, 2, 3] (some 44100) (some 110250))))
        (listSlice [1, 2, 3] (some 44100) (some 110250)).length)) :=
  ⟨(C3_segment_slice_bounds (AudioData.mk 44100 2 (some (.mono [1, 2, 3])) 3) rfl).1,
   (C3_segment_slice_bounds (AudioData.mk 44100 2 (some (.mono [1, 2, 3])) 3) rfl).2
     [1, 2, 3] rfl⟩

/-- C4 as stated is false in one corner: appending a one-frame buffer to a
full buffer exceeds capacity (writeCursor + 1 > capacity) yet does not fail:
numpy broadcasts the length-1 source into the empty clipped slice, writes
nothing, and the cursor still advances past the capacity.  Here a capacity-2
mono buffer with cursor 2 appends a 1-sample buffer: the result is ok and the
cursor becomes 3. -/
theorem C4_append_overflow_counterexample :
    (AudioData.mk 44100 1 (some (.mono [5, 6])) 2).endindex +
        (AudioData.mk 44100 1 (some (.mono [7])) 1).len >
      (AudioData.mk 44100 1 (some (.mono [5, 6])) 2).len ∧
    (AudioData.mk 44100 1 (some (.mono [5, 6])) 2).append
        (AudioData.mk 44100 1 (some (.mono [7])) 1) =
      .ok (AudioData.mk 44100 1 (some (.mono [5, 6])) 3) :=
  ⟨by decide, rfl⟩

/-- C4 amended: on buffers with backing arrays (mono case shown; the cursor
within capacity), append with writeCursor + length(other) beyond capacity
fails with numpy's broadcast ValueError (the spec's CapacityExceeded) and
leaves the buffer unchanged, except when length(other) = 1: then the
length-1 source broadcasts into the empty clipped slice and the cursor
advances without writing.  Within capacity, append copies other's samples at
the cursor and advances the cursor by length(other). -/
theorem C4_append_capacity (a o : AudioData) (xs ys : List Int)
    (ha : a.data = some (.mono xs)) (ho : o.data = some (.mono ys))
    (hcur : a.endindex ≤ xs.length) :
    (xs.length < a.endindex + ys.length → ys.length ≠ 1 →
      a.append o = .error .valueError) ∧
    (a.endindex + ys.length ≤ xs.length →
      a.append o = .ok ⟨a.samplerate, a.numchannels,
        some (.mono (xs.take a.endindex ++ ys ++ xs.drop (a.endindex + ys.length))),
        a.endindex + ys.length⟩) ∧
    (a.endindex = xs.length → ys.length = 1 →
      a.append o = .ok ⟨a.samplerate, a.numchannels, some (.mono xs), a.endindex + 1⟩) := by
  refine ⟨?_, ?_, ?_⟩
  · intro hover hne1
    exact append_mono_overflow a o xs ys ha ho hcur hover hne1
  · intro hfit
    exact append_mono_ok a o xs ys ha ho hfit
  · intro hfull h1
    exact append_mono_bcast a o xs ys ha ho hfull h1

theorem C4_append_capacity_witness :
    (AudioData.mk 8000 1 (some (.mono [1, 2, 3, 4])) 2).append
        (AudioData.mk 44100 2 (some (.mono [9, 9, 9])) 3) = .error .valueError ∧
    (AudioData.mk 8000 1 (some (.mono [1, 2, 3, 4])) 2).append
        (AudioData.mk 44100 2 (some (.mono [9, 9])) 2) =
      .ok ⟨8000, 1, some (.mono [1, 2, 9, 9]), 4⟩ := by
  constructor
  · exact (C4_append_capacity (AudioData.mk 8000 1 (some (.mono [1, 2, 3, 4])) 2)
      (AudioData.mk 44100 2 (some (.mono [9, 9, 9])) 3) [1, 2, 3, 4] [9, 9, 9]
      rfl rfl (by decide)).1 (by decide) (by decide)
  · have h := (C4_append_capacity (AudioData.mk 8000 1 (some (.mono [1, 2, 3, 4])) 2)
      (AudioData.mk 44100 2 (some (.mono [9, 9])) 2) [1, 2, 3, 4] [9, 9]
      rfl rfl (by decide)).2.1 (by decide)
    rw [h]
    rfl

/-- C8: __add__ semantics.  If the left buffer has no backing array, the
result is a fresh buffer holding a copy of the right operand's full array;
symmetrically when the right has none; when both are present, the result's
backing array is the sequential concatenation of the two full backing arrays
(length len(a) + len(b)), including any unwritten samples beyond either
operand's write cursor (the concatenation uses the whole arrays, not the
cursors). -/
theorem C8_concat_full_arrays (a b : AudioData) :
    (∀ barr, a.data = Option.none → b.data = some barr → barr.wfb = true →
      a.add b = .ok ⟨44100, 2, some barr, barr.frames⟩) ∧
    (∀ sarr, a.data = some sarr → b.data = Option.none → sarr.wfb = true →
      a.add b = .ok ⟨44100, 2, some sarr, sarr.frames⟩) ∧
    (∀ sarr barr carr, a.data = some sarr → b.data = some barr →
      npConcat sarr barr = some carr → sarr.wfb = true → barr.wfb = true →
      a.add b = .ok ⟨44100, 2, some carr, carr.frames⟩ ∧
      carr.frames = sarr.frames + barr.frames) := by
  refine ⟨?_, ?_, ?_⟩
  · intro barr ha hb hwf
    exact add_left_none a b barr ha hb hwf
  · intro sarr ha hb hwf
    exact add_right_none a b sarr ha hb hwf
  · intro sarr barr carr ha hb hcat hwf1 hwf2
    exact ⟨add_both a b sarr barr carr ha hb hcat (npConcat_wfb hwf1 hwf2 hcat),
      npConcat_frames hcat⟩

theorem C8_concat_full_arrays_witness :
    (AudioData.mk 8000 1 (some (.mono [1, 2])) 1).add
        (AudioData.mk 22050 2 (some (.mono [3])) 0) =
      .ok ⟨44100, 2, some (.mono [1, 2, 3]), (NpArray.mono [1, 2, 3]).frames⟩ ∧
    (NpArray.mono [1, 2, 3]).frames =
      (NpArray.mono [1, 2]).frames + (NpArray.mono [3]).frames :=
  (C8_concat_full_arrays (AudioData.mk 8000 1 (some (.mono [1, 2])) 1)
    (AudioData.mk 22050 2 (some (.mono [3])) 0)).2.2
    (.mono [1, 2]) (.mono [3]) (.mono [1, 2, 3]) rfl rfl rfl rfl rfl

/-- C10: when both operands have backing arrays, the buffer returned by
__add__ carries the AudioData constructor defaults, sample rate 44100 and
channel count 2, regardless of either operand's sample rate or channel
count; by contrast, getslice passes the source's sample rate to the sliced
result. -/
theorem C10_concat_constructor_defaults (a b : AudioData) :
    (∀ sarr barr carr, a.data = some sarr → b.data = some barr →
      npConcat sarr barr = some carr → sarr.wfb = true → barr.wfb = true →
      ∃ r, a.add b = .ok r ∧ r.samplerate = 44100 ∧ r.numchannels = 2) ∧
    (∀ arr i j, a.data = some arr → arr.wfb = true →
      ∃ r, a.getitem (.sl (.int i) (.int j)) = .ok (.inr r) ∧
        r.samplerate = a.samplerate) := by
  constructor
  · intro sarr barr carr ha hb hcat hwf1 hwf2
    exact ⟨⟨44100, 2, some carr, carr.frames⟩,
      add_both a b sarr barr carr ha hb hcat (npConcat_wfb hwf1 hwf2 hcat), rfl, rfl⟩
  · intro arr i j hdata hwf
    refine ⟨⟨a.samplerate, 2, some (npSliceArr arr (some i) (some j)),
      (npSliceArr arr (some i) (some j)).frames⟩, ?_, rfl⟩
    simp only [AudioData.getitem, resolveIdx]
    rw [getslice_int a arr i j hdata hwf]
    rfl

theorem C10_concat_constructor_defaults_witness :
    (∃ r, (AudioData.mk 8000 1 (some (.mono [1, 2])) 2).add
        (AudioData.mk 22050 1 (some (.mono [3])) 1) = .ok r ∧
      r.samplerate = 44100 ∧ r.numchannels = 2) ∧
    (∃ r, (AudioData.mk 8000 1 (some (.mono [1, 2])) 2).getitem
        (.sl (.int 0) (.int 1)) = .ok (.inr r) ∧ r.samplerate = 8000) :=
  ⟨(C10_concat_constructor_defaults (AudioData.mk 8000 1 (some (.mono [1, 2])) 2)
      (AudioData.mk 22050 1 (some (.mono [3])) 1)).1
      (.mono [1, 2]) (.mono [3]) (.mono [1, 2, 3]) rfl rfl rfl rfl rfl,
   (C10_concat_constructor_defaults (AudioData.mk 8000 1 (some (.mono [1, 2])) 2)
      (AudioData.mk 22050 1 (some (.mono [3])) 1)).2 (.mono [1, 2]) 0 1 rfl rfl⟩

/-- C9: for every initialised buffer, save writes a little-endian RIFF/WAVE
byte stream: 'RIFF', the patched file size, 'WAVE', a fmt chunk with header
length 16, PCM tag 1, the channel count, the sample rate, byte rate =
samplerate * 2 * channels, block align = channels * 2 and bits 16, followed
by a data chunk whose size field is the whole backing array's nbytes and
whose payload is the bytes of the entire backing array (not limited to the
write cursor).  The byte-rate field sits at offsets 28-31, the data size at
40-43 and the payload from 44 on; for a mono 100-sample buffer at 8000 Hz
the byte rate is 8000*2*1 = 16000 and the data chunk holds 200 bytes. -/
theorem C9_save_wav_layout (a : AudioData) (arr : NpArray)
    (hdata : a.data = some arr) (hwf : arr.wfb = true) :
    a.save = .ok ([82, 73, 70, 70] ++ le4 ((36 : Int) + (arr.nbytes : Int)) ++
      [87, 65, 86, 69] ++ [102, 109, 116, 32] ++ le4 16 ++ le2 1 ++
      le2 ((nocOf arr : Nat) : Int) ++ le4 a.samplerate ++
      le4 (a.samplerate * 2 * ((nocOf arr : Nat) : Int)) ++
      le2 (((nocOf arr : Nat) : Int) * 2) ++ le2 16 ++ [100, 97, 116, 97] ++
      le4 ((arr.nbytes : Nat) : Int) ++ npBytes arr) ∧
    (∀ f, a.save = .ok f →
      (f.drop 28).take 4 = le4 (a.samplerate * 2 * ((nocOf arr : Nat) : Int)) ∧
      (f.drop 40).take 4 = le4 ((arr.nbytes : Nat) : Int) ∧
      f.drop 44 = npBytes arr ∧
      (npBytes arr).length = arr.nbytes) ∧
    (∀ xs, arr = .mono xs → xs.length = 100 → a.samplerate = 8000 →
      a.samplerate * 2 * ((nocOf arr : Nat) : Int) = 16000 ∧
      arr.nbytes = 200 ∧ (npBytes arr).length = 200) := by
  have hs : a.save = .ok (wavFile a.samplerate arr) := by
    unfold AudioData.save
    rw [hdata]
  refine ⟨?_, ?_, ?_⟩
  · rw [hs]
    rfl
  · intro f hf
    have hfeq : wavFile a.samplerate arr = f := by
      rw [hs] at hf
      exact Except.ok.inj hf
    subst hfeq
    refine ⟨?_, ?_, ?_, npBytes_length arr hwf⟩
    · have hre : wavFile a.samplerate arr =
          ([82, 73, 70, 70] ++ le4 ((36 : Int) + (arr.nbytes : Int)) ++ [87, 65, 86, 69] ++
            [102, 109, 116, 32] ++ le4 16 ++ le2 1 ++ le2 ((nocOf arr : Nat) : Int) ++
            le4 a.samplerate) ++
          (le4 (a.samplerate * 2 * ((nocOf arr : Nat) : Int)) ++
            (le2 (((nocOf arr : Nat) : Int) * 2) ++ le2 16 ++ [100, 97, 116, 97] ++
              le4 ((arr.nbytes : Nat) : Int) ++ npBytes arr)) := by
        simp [wavFile, List.append_assoc]
      rw [hre, seg_extract (by simp [le4_length, le2_length]) (le4_length _)]
    · have hre : wavFile a.samplerate arr =
          ([82, 73, 70, 70] ++ le4 ((36 : Int) + (arr.nbytes : Int)) ++ [87, 65, 86, 69] ++
            [102, 109, 116, 32] ++ le4 16 ++ le2 1 ++ le2 ((nocOf arr : Nat) : Int) ++
            le4 a.samplerate ++ le4 (a.samplerate * 2 * ((nocOf arr : Nat) : Int)) ++
            le2 (((nocOf arr : Nat) : Int) * 2) ++ le2 16 ++ [100, 97, 116, 97]) ++
          (le4 ((arr.nbytes : Nat) : Int) ++ npBytes arr) := by
        simp [wavFile, List.append_assoc]
      rw [hre, seg_extract (by simp [le4_length, le2_length]) (le4_length _)]
    · have hre : wavFile a.samplerate arr =
          ([82, 73, 70, 70] ++ le4 ((36 : Int) + (arr.nbytes : Int)) ++ [87, 65, 86, 69] ++
            [102, 109, 116, 32] ++ le4 16 ++ le2 1 ++ le2 ((nocOf arr : Nat) : Int) ++
            le4 a.samplerate ++ le4 (a.samplerate * 2 * ((nocOf arr : Nat) : Int)) ++
            le2 (((nocOf arr : Nat) : Int) * 2) ++ le2 16 ++ [100, 97, 116, 97] ++
            le4 ((arr.nbytes : Nat) : Int)) ++ npBytes arr := by
        simp [wavFile, List.append_assoc]
      rw [hre, tail_extract (by simp [le4_length, le2_length])]
  · intro xs harr hlen hsr
    subst harr
    refine ⟨?_, ?_, ?_⟩
    · rw [hsr]
      norm_num [nocOf]
    · simp [NpArray.nbytes, hlen]
    · rw [npBytes_length _ hwf]
      simp [NpArray.nbytes, hlen]

theorem C9_save_wav_layout_witness :
    (AudioData.mk 8000 1 (some (.mono (List.replicate 100 0))) 100).save =
      .ok (wavFile 8000 (.mono (List.replicate 100 0))) ∧
    (8000 : Int) * 2 * ((nocOf (.mono (List.replicate 100 0)) : Nat) : Int) = 16000 ∧
    (NpArray.mono (List.replicate 100 0)).nbytes = 200 ∧
    (npBytes (.mono (List.replicate 100 0))).length = 200 := by
  have h := C9_save_wav_layout (AudioData.mk 8000 1 (some (.mono (List.replicate 100 0))) 100)
    (.mono (List.replicate 100 0)) rfl rfl
  have h3 := h.2.2 (List.replicate 100 0) rfl (by simp) rfl
  exact ⟨rfl, h3.1, h3.2.1, h3.2.2⟩

/-- C5: getpieces allocates a buffer whose capacity is the sum of
int(duration * samplerate) over the segments plus the fixed 100000-sample
margin, with the source's channel shape, and appends each segment's indexed
sub-range in input order.  In general, any successful assembly has backing
shape pieceShape(source, durOf); for a 44100 Hz mono source holding at least
2 seconds and segments (0, 1.0) and (1.0, 1.0), the result's capacity
(Length) is 2*44100 + 100000 and its write cursor is 2*44100. -/
theorem C5_getpieces_assembly (a : AudioData) :
    (∀ arr segs r, a.data = some arr → getpieces a segs = .ok r →
      r.data.map NpArray.shape = some (pieceShape arr (durOf a segs).toNat)) ∧
    (∀ xs, a.samplerate = 44100 → a.data = some (.mono xs) → 88200 ≤ xs.length →
      ∃ r, getpieces a [⟨0, 1⟩, ⟨1, 1⟩] = .ok r ∧
        r.len = 2 * 44100 + 100000 ∧ r.endindex = 2 * 44100) := by
  constructor
  · intro arr segs r hdata h
    rw [getpieces_def, hdata] at h
    have h1 : (if durOf a segs < 0 then (Except.error PyErr.valueError : Except PyErr AudioData)
        else match AudioData.init Option.none (some (pieceShape arr (durOf a segs).toNat))
            a.samplerate (nocOf arr) with
          | .error e => .error e
          | .ok newAD => List.foldlM (getpiecesStep a) newAD segs) = .ok r := h
    by_cases hneg : durOf a segs < 0
    · rw [if_pos hneg] at h1
      cases h1
    · rw [if_neg hneg, initAD_shapeAlloc] at h1
      have h2 : List.foldlM (getpiecesStep a)
          (AudioData.mk a.samplerate (nocOf arr)
            (some (npZeros (pieceShape arr (durOf a segs).toNat))) 0) segs = .ok r := h1
      rw [getpiecesFold_shape a segs _ r h2]
      simp [npZeros_shape]
  · intro xs hsr hdata hlen
    have hdur : durOf a [⟨0, 1⟩, ⟨1, 1⟩] = 188200 := by
      simp only [durOf, List.foldl_cons, List.foldl_nil, hsr]
      norm_num [pyInt]
    have hp1 : a.getitem (.seg ⟨0, 1⟩) = .ok (.inr ⟨44100, 2,
        some (.mono (listSlice xs (some 0) (some 44100))),
        (listSlice xs (some 0) (some 44100)).length⟩) := by
      rw [getitem_seg_mono a xs ⟨0, 1⟩ hdata, hsr]
      norm_num [pyInt]
    have hp2 : a.getitem (.seg ⟨1, 1⟩) = .ok (.inr ⟨44100, 2,
        some (.mono (listSlice xs (some 44100) (some 88200))),
        (listSlice xs (some 44100) (some 88200)).length⟩) := by
      rw [getitem_seg_mono a xs ⟨1, 1⟩ hdata, hsr]
      norm_num [pyInt]
    have hlt1 : (listSlice xs (some (0 : Int)) (some (44100 : Int))).length = 44100 := by
      rw [listSlice_length_int xs 0 44100 (by norm_num) (by norm_num) (by omega)]
      omega
    have hlt2 : (listSlice xs (some (44100 : Int)) (some (88200 : Int))).length = 44100 := by
      rw [listSlice_length_int xs 44100 88200 (by norm_num) (by norm_num) (by omega)]
      omega
    have hg : getpieces a [⟨0, 1⟩, ⟨1, 1⟩] = List.foldlM (getpiecesStep a)
        (AudioData.mk 44100 1 (some (.mono (List.replicate 188200 0))) 0)
        [⟨0, 1⟩, ⟨1, 1⟩] := by
      rw [getpieces_def, hdata]
      show (if durOf a [⟨0, 1⟩, ⟨1, 1⟩] < 0
          then (Except.error PyErr.valueError : Except PyErr AudioData)
          else match AudioData.init Option.none
              (some (pieceShape (.mono xs) (durOf a [⟨0, 1⟩, ⟨1, 1⟩]).toNat))
              a.samplerate (nocOf (.mono xs)) with
            | .error e => .error e
            | .ok newAD => List.foldlM (getpiecesStep a) newAD [⟨0, 1⟩, ⟨1, 1⟩]) = _
      rw [hdur, hsr, if_neg (by norm_num), initAD_shapeAlloc]
      rfl
    have hfit1 : (0 : Nat) + (listSlice xs (some (0 : Int)) (some (44100 : Int))).length ≤
        (List.replicate 188200 (0 : Int)).length := by
      rw [List.length_replicate]
      omega
    have happ1 := append_mono_ok
      (AudioData.mk 44100 1 (some (.mono (List.replicate 188200 0))) 0)
      (AudioData.mk 44100 2 (some (.mono (listSlice xs (some 0) (some 44100))))
        (listSlice xs (some 0) (some 44100)).length)
      (List.replicate 188200 0) (listSlice xs (some 0) (some 44100)) rfl rfl hfit1
    have hsub : (188200 : Nat) - 44100 = 144100 := by norm_num
    have hstep1 : getpiecesStep a
        (AudioData.mk 44100 1 (some (.mono (List.replicate 188200 0))) 0) ⟨0, 1⟩ =
        .ok (AudioData.mk 44100 1
          (some (.mono (listSlice xs (some 0) (some 44100) ++ List.replicate 144100 0)))
          44100) := by
      simp only [getpiecesStep, hp1]
      rw [happ1]
      simp only [hlt1, List.take_zero, List.nil_append, List.drop_replicate,
        Nat.zero_add, hsub]
    have hfit2 : (44100 : Nat) +
        (listSlice xs (some (44100 : Int)) (some (88200 : Int))).length ≤
        (listSlice xs (some (0 : Int)) (some (44100 : Int)) ++
          List.replicate 144100 (0 : Int)).length := by
      rw [List.length_append, List.length_replicate]
      omega
    have happ2 := append_mono_ok
      (AudioData.mk 44100 1
        (some (.mono (listSlice xs (some 0) (some 44100) ++ List.replicate 144100 0))) 44100)
      (AudioData.mk 44100 2 (some (.mono (listSlice xs (some 44100) (some 88200))))
        (listSlice xs (some 44100) (some 88200)).length)
      (listSlice xs (some 0) (some 44100) ++ List.replicate 144100 0)
      (listSlice xs (some 44100) (some 88200)) rfl rfl hfit2
    have hstep2 : getpiecesStep a
        (AudioData.mk 44100 1
          (some (.mono (listSlice xs (some 0) (some 44100) ++ List.replicate 144100 0)))
          44100) ⟨1, 1⟩ =
        .ok (AudioData.mk 44100 1
          (some (.mono ((listSlice xs (some 0) (some 44100) ++
              List.replicate 144100 0).take 44100 ++
            listSlice xs (some 44100) (some 88200) ++
            (listSlice xs (some 0) (some 44100) ++ List.replicate 144100 0).drop
              (44100 + (listSlice xs (some 44100) (some 88200)).length))))
          (44100 + (listSlice xs (some 44100) (some 88200)).length)) := by
      simp only [getpiecesStep, hp2]
      exact happ2
    have e1 : getpieces a [⟨0, 1⟩, ⟨1, 1⟩] = List.foldlM (getpiecesStep a)
        (AudioData.mk 44100 1
          (some (.mono (listSlice xs (some 0) (some 44100) ++ List.replicate 144100 0)))
          44100) [⟨1, 1⟩] := by
      rw [hg, List.foldlM_cons, hstep1, except_bind_ok]
    have e2 : List.foldlM (getpiecesStep a)
        (AudioData.mk 44100 1
          (some (.mono (listSlice xs (some 0) (some 44100) ++ List.replicate 144100 0)))
          44100) [⟨1, 1⟩] =
        .ok (AudioData.mk 44100 1
          (some (.mono ((listSlice xs (some 0) (some 44100) ++
              List.replicate 144100 0).take 44100 ++
            listSlice xs (some 44100) (some 88200) ++
            (listSlice xs (some 0) (some 44100) ++ List.replicate 144100 0).drop
              (44100 + (listSlice xs (some 44100) (some 88200)).length))))
          (44100 + (listSlice xs (some 44100) (some 88200)).length)) := by
      rw [List.foldlM_cons, hstep2, except_bind_ok]
      rfl
    refine ⟨AudioData.mk 44100 1
      (some (.mono ((listSlice xs (some 0) (some 44100) ++
          List.replicate 144100 0).take 44100 ++
        listSlice xs (some 44100) (some 88200) ++
        (listSlice xs (some 0) (some 44100) ++ List.replicate 144100 0).drop
          (44100 + (listSlice xs (some 44100) (some 88200)).length))))
      (44100 + (listSlice xs (some 44100) (some 88200)).length), e1.trans e2, ?_, ?_⟩
    · simp only [AudioData.len, NpArray.frames]
      simp only [List.length_append, List.length_take, List.length_drop,
        List.length_replicate, hlt1, hlt2]
      omega
    · show 44100 + (listSlice xs (some 44100) (some 88200)).length = 2 * 44100
      rw [hlt2]

theorem C5_getpieces_assembly_witness :
    ∃ r, getpieces (AudioData.mk 44100 2 (some (.mono (List.replicate 88200 0))) 0)
        [⟨0, 1⟩, ⟨1, 1⟩] = .ok r ∧
      r.len = 2 * 44100 + 100000 ∧ r.endindex = 2 * 44100 :=
  (C5_getpieces_assembly
    (AudioData.mk 44100 2 (some (.mono (List.replicate 88200 0))) 0)).2
    (List.replicate 88200 0) rfl rfl
    (by simp only [List.length_replicate]; exact Nat.le_refl 88200)

end EchoAudio
